import Mathlib

/-!
# Bestiary: the Beast store and its GraphQL resolvers (`schema.go`)

A shallow embedding of the four resolvers of `schema.go` (`addBeast`,
`updateBeast`, `beast`, `beastList`) over the two package-level variables they
share, `BeastList` and `currentMaxId`.

Modelling conventions.

* A Go `int` is a 64-bit two's-complement integer: it is an `Int`, and the one
  arithmetic expression of the file, `currentMaxId + 1`, is reduced by `wrapInt`.
* A Go `[]string` is a `List String`; the nil slice and the empty slice are both `[]`.
* `params.Args` is a `map[string]interface{}`: a function from keys to
  `Option Value`, `none` for a key that is not in the map.
* A resolver either returns its `(interface{}, error)` pair or panics (a
  single-value type assertion on a value of another dynamic type); the package
  state after the call is kept in both cases, because the assignments made
  before a panic stay.
-/

namespace Bestiary

/-! ## Data model -/

/-- The `Beast` struct of `schema.go`. -/
structure Beast where
  ID : Int
  Name : String
  Description : String
  OtherNames : List String
  ImageURL : String
  deriving DecidableEq, Repr

/-- The composite literal `Beast{}`: every field has its zero value. -/
def Beast.zero : Beast :=
  { ID := 0, Name := "", Description := "", OtherNames := [], ImageURL := "" }

/-- The dynamic values an `interface{}` entry of `params.Args` can hold, as far
as the type assertions of the resolvers tell them apart. `ifaces` is a
`[]interface{}` of optional strings, the shape in which a GraphQL `[String]`
argument arrives. -/
inductive Value where
  | null
  | str (s : String)
  | int (n : Int)
  | bool (b : Bool)
  | strs (xs : List String)
  | ifaces (xs : List (Option String))
  deriving DecidableEq, Repr

/-- The argument map `params.Args`. -/
abbrev Args := String → Option Value

/-- The package-level variables `BeastList` and `currentMaxId`. -/
structure State where
  BeastList : List Beast
  currentMaxId : Int
  deriving DecidableEq, Repr

/-- What a call of a resolver does: it returns a value and an error, or panics. -/
inductive Outcome (α : Type) where
  | returned (value : α) (err : Option String)
  | panicked
  deriving DecidableEq, Repr

/-! ## Go primitives -/

/-- Width of the Go type `int`. -/
def intBits : Nat := 64

/-- Largest value of a Go `int`. -/
def maxInt : Int := 2 ^ (intBits - 1) - 1

/-- Smallest value of a Go `int`. -/
def minInt : Int := -(2 ^ (intBits - 1))

/-- Two's-complement reduction of an integer to the range of a Go `int`. -/
def wrapInt (x : Int) : Int :=
  (x + 2 ^ (intBits - 1)) % 2 ^ intBits - 2 ^ (intBits - 1)

/-- The value is a Go `int`. -/
def IsInt (x : Int) : Prop := minInt ≤ x ∧ x ≤ maxInt

instance (x : Int) : Decidable (IsInt x) := by
  unfold IsInt; infer_instance

/-- The comma-ok assertion `v, _ := m[k].(string)`: the string, or `""`. -/
def okString : Option Value → String
  | some (.str s) => s
  | _ => ""

/-- The second result of the comma-ok assertion `_, isOK := m[k].(string)`. -/
def isString : Option Value → Bool
  | some (.str _) => true
  | _ => false

/-- The comma-ok assertion `v, _ := m[k].([]string)`: the slice, or nil. -/
def okStrings : Option Value → List String
  | some (.strs xs) => xs
  | _ => []

/-- The comma-ok assertion `v, _ := m[k].(int)`: the integer, or `0`. -/
def okInt : Option Value → Int
  | some (.int n) => n
  | _ => 0

/-- The single-value assertion `m[k].(string)`: `none` stands for the panic. -/
def mustString : Option Value → Option String
  | some (.str s) => some s
  | _ => none

/-- The single-value assertion `m[k].([]string)`: `none` stands for the panic. -/
def mustStrings : Option Value → Option (List String)
  | some (.strs xs) => some xs
  | _ => none

/-! ## Mutation resolvers -/

/-- The resolver of `addBeast` (`schema.go`, lines 85-115). -/
def addBeast (args : Args) (s : State) : Outcome Beast × State :=
  let name := okString (args "name")
  let description := okString (args "description")
  let otherNames := okStrings (args "otherNames")
  let imageUrl := okString (args "imageUrl")
  let newID := wrapInt (s.currentMaxId + 1)
  let currentMaxId := wrapInt (s.currentMaxId + 1)
  let newBeast : Beast :=
    { ID := newID, Name := name, Description := description,
      OtherNames := otherNames, ImageURL := imageUrl }
  (.returned newBeast none,
    { BeastList := s.BeastList ++ [newBeast], currentMaxId := currentMaxId })

/-- Lines 142-144: `BeastList[i].Description = params.Args["description"].(string)`
when the key is in the map. `Except.error` carries the record as it is when the
assertion panics. -/
def setDescription (args : Args) (b : Beast) : Except Beast Beast :=
  match args "description" with
  | none => .ok b
  | some v =>
    match mustString (some v) with
    | some d => .ok { b with Description := d }
    | none => .error b

/-- Lines 145-147: `BeastList[i].Name = params.Args["name"].(string)`. -/
def setName (args : Args) (b : Beast) : Except Beast Beast :=
  match args "name" with
  | none => .ok b
  | some v =>
    match mustString (some v) with
    | some n => .ok { b with Name := n }
    | none => .error b

/-- Lines 148-150: `BeastList[i].ImageURL = params.Args["imageUrl"].(string)`. -/
def setImageURL (args : Args) (b : Beast) : Except Beast Beast :=
  match args "imageUrl" with
  | none => .ok b
  | some v =>
    match mustString (some v) with
    | some u => .ok { b with ImageURL := u }
    | none => .error b

/-- Lines 151-153: `BeastList[i].OtherNames = params.Args["otherNames"].([]string)`. -/
def setOtherNames (args : Args) (b : Beast) : Except Beast Beast :=
  match args "otherNames" with
  | none => .ok b
  | some v =>
    match mustStrings (some v) with
    | some xs => .ok { b with OtherNames := xs }
    | none => .error b

/-- The four conditional assignments of lines 142-153, in source order. -/
def updateFields (args : Args) (b : Beast) : Except Beast Beast :=
  setDescription args b >>= setName args >>= setImageURL args >>= setOtherNames args

/-- The search loop of lines 140-158 over the records from index `i` on: the
records it leaves behind, and the outcome. The first record whose `ID` is `id`
is updated and the loop breaks; with no such record `affectedBeast` is still
`Beast{}`. -/
def updateLoop (args : Args) (id : Int) : List Beast → Outcome Beast × List Beast
  | [] => (.returned Beast.zero none, [])
  | b :: rest =>
    if b.ID = id then
      match updateFields args b with
      | .ok b1 => (.returned b1 none, b1 :: rest)
      | .error b1 => (.panicked, b1 :: rest)
    else
      let r := updateLoop args id rest
      (r.1, b :: r.2)

/-- The resolver of `updateBeast` (`schema.go`, lines 135-161). -/
def updateBeast (args : Args) (s : State) : Outcome Beast × State :=
  let id := okInt (args "id")
  let r := updateLoop args id s.BeastList
  (r.1, { s with BeastList := r.2 })

/-! ## Query resolvers -/

/-- The `range` loop of lines 184-188: the first record whose `Name` is
`nameQuery`, if the loop returns one. -/
def beastLoop (nameQuery : String) : List Beast → Option Beast
  | [] => none
  | b :: rest => if b.Name = nameQuery then some b else beastLoop nameQuery rest

/-- The resolver of `beast` (`schema.go`, lines 179-192). -/
def beast (args : Args) (s : State) : Outcome Beast × State :=
  let nameQuery := okString (args "name")
  let isOK := isString (args "name")
  if isOK then
    match beastLoop nameQuery s.BeastList with
    | some b => (.returned b none, s)
    | none => (.returned Beast.zero none, s)
  else
    (.returned Beast.zero none, s)

/-- The resolver of `beastList` (`schema.go`, lines 198-200). -/
def beastList (s : State) : Outcome (List Beast) × State :=
  (.returned s.BeastList none, s)

/-! ## Sequences of calls -/

/-- One call of a resolver. -/
inductive Op where
  | addBeast (args : Args)
  | updateBeast (args : Args)
  | beast (args : Args)
  | beastList

/-- The state after one call. -/
def exec (op : Op) (s : State) : State :=
  match op with
  | .addBeast args => (addBeast args s).2
  | .updateBeast args => (updateBeast args s).2
  | .beast args => (beast args s).2
  | .beastList => (beastList s).2

/-- The state after a serialized sequence of calls. -/
def run : List Op → State → State
  | [], s => s
  | op :: ops, s => run ops (exec op s)

/-- Serialized `addBeast` calls: the outcomes in call order and the final state. -/
def addBeasts : List Args → State → List (Outcome Beast) × State
  | [], s => ([], s)
  | a :: as, s =>
    let r := addBeast a s
    let rs := addBeasts as r.2
    (r.1 :: rs.1, rs.2)

/-- The state at startup: `BeastList` holds what was read from
`beastData.json` and `currentMaxId` is `5` (line 62). -/
def startup (seed : List Beast) : State :=
  { BeastList := seed, currentMaxId := 5 }

/-- The identifiers of the store, in sequence order. -/
def ids (s : State) : List Int := s.BeastList.map (·.ID)

/-- Argument map with the given entries, later entries shadowed by earlier ones. -/
def mkArgs (entries : List (String × Value)) : Args :=
  fun k => entries.lookup k

/-- The records of a list of outcomes that were returned, in call order. -/
def returnedBeasts : List (Outcome Beast) → List Beast
  | [] => []
  | .returned b _ :: os => b :: returnedBeasts os
  | .panicked :: os => returnedBeasts os

/-- Number of `addBeast` calls in a sequence of calls. -/
def addCount : List Op → Nat
  | [] => 0
  | .addBeast _ :: ops => addCount ops + 1
  | _ :: ops => addCount ops

/-- The identifiers of the store are pairwise distinct and none exceeds the
identifier counter. -/
def UniqInv (s : State) : Prop :=
  (ids s).Nodup ∧ ∀ i ∈ ids s, i ≤ s.currentMaxId

instance (s : State) : Decidable (UniqInv s) := by
  unfold UniqInv; infer_instance

/-! ## Concrete records and calls -/

/-- A seeded record. -/
def sasquatch : Beast :=
  { ID := 1, Name := "Sasquatch", Description := "A large ape-like creature",
    OtherNames := ["Bigfoot"], ImageURL := "sasquatch.png" }

/-- A seeded record. -/
def nessie : Beast :=
  { ID := 2, Name := "Nessie", Description := "A lake monster",
    OtherNames := ["Loch Ness Monster"], ImageURL := "nessie.png" }

/-- A seeded record. -/
def yeti : Beast :=
  { ID := 3, Name := "Yeti", Description := "A snow creature",
    OtherNames := ["Abominable Snowman"], ImageURL := "yeti.png" }

/-- A record that shares the identifier of `yeti`. -/
def yetiTwin : Beast :=
  { ID := 3, Name := "Meh-Teh", Description := "Another snow creature",
    OtherNames := [], ImageURL := "" }

/-- A seeded record whose identifier is above the initial counter. -/
def chupacabra : Beast :=
  { ID := 6, Name := "Chupacabra", Description := "A goat sucker",
    OtherNames := [], ImageURL := "" }

/-- A record whose identifier is the smallest `int`. -/
def lowest : Beast :=
  { ID := minInt, Name := "Lowest", Description := "", OtherNames := [], ImageURL := "" }

/-- The arguments of `addBeast(name: "Mothman", description: "A winged humanoid")`. -/
def addMothman : Args :=
  mkArgs [("name", .str "Mothman"), ("description", .str "A winged humanoid")]

/-- The arguments of `addBeast(name: "Sasquatch", description: "Y")`. -/
def addSasquatch : Args :=
  mkArgs [("name", .str "Sasquatch"), ("description", .str "Y")]

/-! ## Lemmas on the primitives -/

theorem maxInt_eq : maxInt = 9223372036854775807 := by decide

theorem minInt_eq : minInt = -9223372036854775808 := by decide

theorem wrapInt_of_isInt {x : Int} (h : IsInt x) : wrapInt x = x := by
  obtain ⟨h1, h2⟩ := h
  rw [maxInt_eq] at h2
  rw [minInt_eq] at h1
  have e1 : (2 : Int) ^ (intBits - 1) = 9223372036854775808 := by decide
  have e2 : (2 : Int) ^ intBits = 18446744073709551616 := by decide
  unfold wrapInt
  rw [e1, e2]
  omega

theorem wrapInt_succ {c : Int} (h : IsInt c) (hlt : c < maxInt) : wrapInt (c + 1) = c + 1 := by
  apply wrapInt_of_isInt
  obtain ⟨h1, h2⟩ := h
  constructor <;> omega

/-! ## Lemmas on `addBeast` -/

theorem addBeast_state (args : Args) (s : State) :
    (addBeast args s).2 =
      { BeastList := s.BeastList ++
          [{ ID := wrapInt (s.currentMaxId + 1), Name := okString (args "name"),
             Description := okString (args "description"),
             OtherNames := okStrings (args "otherNames"),
             ImageURL := okString (args "imageUrl") }],
        currentMaxId := wrapInt (s.currentMaxId + 1) } := rfl

theorem addBeast_outcome (args : Args) (s : State) :
    (addBeast args s).1 =
      .returned { ID := wrapInt (s.currentMaxId + 1), Name := okString (args "name"),
                  Description := okString (args "description"),
                  OtherNames := okStrings (args "otherNames"),
                  ImageURL := okString (args "imageUrl") } none := rfl

theorem ids_addBeast (args : Args) (s : State) :
    ids (addBeast args s).2 = ids s ++ [wrapInt (s.currentMaxId + 1)] := by
  simp [ids, addBeast_state]

theorem counter_addBeast (args : Args) (s : State) :
    (addBeast args s).2.currentMaxId = wrapInt (s.currentMaxId + 1) := rfl

/-- An `otherNames` argument that is not a `[]string`, such as a
`[]interface{}` of strings, fails the comma-ok assertion of line 90: the new
record has no other names. -/
theorem addBeast_otherNames_not_strs (args : Args) (s : State)
    (h : ∀ xs, args "otherNames" ≠ some (.strs xs)) :
    ∃ r, (addBeast args s).1 = .returned r none ∧ r.OtherNames = [] := by
  refine ⟨_, addBeast_outcome args s, ?_⟩
  show okStrings (args "otherNames") = []
  cases hv : args "otherNames" with
  | none => rfl
  | some v =>
    cases v with
    | strs xs => exact absurd hv (h xs)
    | _ => rfl

theorem addBeasts_length (as : List Args) (s : State) :
    (addBeasts as s).1.length = as.length := by
  induction as generalizing s with
  | nil => rfl
  | cons a as ih => simp [addBeasts, ih]

theorem addBeasts_get (as : List Args) (s : State) (hc : IsInt s.currentMaxId)
    (hn : s.currentMaxId + as.length ≤ maxInt) (k : Nat) (hk : k < as.length) :
    ∃ r, (addBeasts as s).1[k]? = some (.returned r none) ∧
      r.ID = s.currentMaxId + (k + 1) := by
  induction as generalizing s k with
  | nil => simp at hk
  | cons a as ih =>
    have hlen : ((a :: as).length : Int) = as.length + 1 := by simp
    rw [hlen] at hn
    have hlt : s.currentMaxId < maxInt := by omega
    have hw := wrapInt_succ hc hlt
    cases k with
    | zero =>
      refine ⟨{ ID := wrapInt (s.currentMaxId + 1), Name := okString (a "name"),
                Description := okString (a "description"),
                OtherNames := okStrings (a "otherNames"),
                ImageURL := okString (a "imageUrl") }, ?_, ?_⟩
      · simp [addBeasts, addBeast_outcome]
      · simp [hw]
    | succ k =>
      have hc1 : IsInt (addBeast a s).2.currentMaxId := by
        rw [counter_addBeast, hw]
        exact ⟨by have := hc.1; omega, by omega⟩
      have hn1 : (addBeast a s).2.currentMaxId + as.length ≤ maxInt := by
        rw [counter_addBeast, hw]; omega
      obtain ⟨r, hr, hid⟩ := ih (addBeast a s).2 hc1 hn1 k (by simpa using hk)
      refine ⟨r, ?_, ?_⟩
      · simpa [addBeasts] using hr
      · rw [hid, counter_addBeast, hw]; push_cast; ring

theorem returnedBeasts_addBeasts_ids (as : List Args) (s : State) (hc : IsInt s.currentMaxId)
    (hn : s.currentMaxId + as.length ≤ maxInt) :
    (returnedBeasts (addBeasts as s).1).map (·.ID) =
      (List.range as.length).map (fun (k : Nat) => s.currentMaxId + ((k : Int) + 1)) := by
  induction as generalizing s with
  | nil => rfl
  | cons a as ih =>
    have hlen : ((a :: as).length : Int) = as.length + 1 := by simp
    rw [hlen] at hn
    have hlt : s.currentMaxId < maxInt := by omega
    have hw := wrapInt_succ hc hlt
    have hc1 : IsInt (addBeast a s).2.currentMaxId := by
      rw [counter_addBeast, hw]
      exact ⟨by have := hc.1; omega, by omega⟩
    have hn1 : (addBeast a s).2.currentMaxId + as.length ≤ maxInt := by
      rw [counter_addBeast, hw]; omega
    have h := ih (addBeast a s).2 hc1 hn1
    simp only [addBeasts, addBeast_outcome, returnedBeasts, List.map_cons, List.length_cons,
      List.range_succ_eq_map, List.map_map]
    rw [h, counter_addBeast, hw]
    simp only [Nat.cast_zero, zero_add, List.cons.injEq, true_and]
    apply List.map_congr_left
    intro k _
    simp only [Function.comp, Nat.cast_succ]
    ring

/-! ## Lemmas on `updateBeast` -/

theorem setDescription_ID {args : Args} {b : Beast} :
    (∀ b1, setDescription args b = .ok b1 → b1.ID = b.ID) ∧
    (∀ b1, setDescription args b = .error b1 → b1.ID = b.ID) := by
  unfold setDescription
  constructor <;> intro b1 h <;> split at h
  · cases h; rfl
  · split at h <;> cases h; rfl
  · cases h
  · split at h <;> cases h; rfl

theorem setName_ID {args : Args} {b : Beast} :
    (∀ b1, setName args b = .ok b1 → b1.ID = b.ID) ∧
    (∀ b1, setName args b = .error b1 → b1.ID = b.ID) := by
  unfold setName
  constructor <;> intro b1 h <;> split at h
  · cases h; rfl
  · split at h <;> cases h; rfl
  · cases h
  · split at h <;> cases h; rfl

theorem setImageURL_ID {args : Args} {b : Beast} :
    (∀ b1, setImageURL args b = .ok b1 → b1.ID = b.ID) ∧
    (∀ b1, setImageURL args b = .error b1 → b1.ID = b.ID) := by
  unfold setImageURL
  constructor <;> intro b1 h <;> split at h
  · cases h; rfl
  · split at h <;> cases h; rfl
  · cases h
  · split at h <;> cases h; rfl

theorem setOtherNames_ID {args : Args} {b : Beast} :
    (∀ b1, setOtherNames args b = .ok b1 → b1.ID = b.ID) ∧
    (∀ b1, setOtherNames args b = .error b1 → b1.ID = b.ID) := by
  unfold setOtherNames
  constructor <;> intro b1 h <;> split at h
  · cases h; rfl
  · split at h <;> cases h; rfl
  · cases h
  · split at h <;> cases h; rfl

/-- Sequencing two steps that keep the identifier keeps the identifier. -/
theorem bind_ID {f : Except Beast Beast} {g : Beast → Except Beast Beast} {b : Beast}
    (hf : (∀ b1, f = .ok b1 → b1.ID = b.ID) ∧ (∀ b1, f = .error b1 → b1.ID = b.ID))
    (hg : ∀ c, (∀ b1, g c = .ok b1 → b1.ID = c.ID) ∧ (∀ b1, g c = .error b1 → b1.ID = c.ID)) :
    (∀ b1, (f >>= g) = .ok b1 → b1.ID = b.ID) ∧
    (∀ b1, (f >>= g) = .error b1 → b1.ID = b.ID) := by
  cases f with
  | error e =>
    constructor
    · intro b1 h; cases h
    · intro b1 h
      have : e = b1 := by injection h
      subst this
      exact hf.2 e rfl
  | ok c =>
    have hc : c.ID = b.ID := hf.1 c rfl
    constructor
    · intro b1 h
      exact ((hg c).1 b1 h).trans hc
    · intro b1 h
      exact ((hg c).2 b1 h).trans hc

theorem updateFields_ID (args : Args) (b : Beast) :
    (∀ b1, updateFields args b = .ok b1 → b1.ID = b.ID) ∧
    (∀ b1, updateFields args b = .error b1 → b1.ID = b.ID) := by
  unfold updateFields
  exact bind_ID (bind_ID (bind_ID setDescription_ID (fun _ => setName_ID))
    (fun _ => setImageURL_ID)) (fun _ => setOtherNames_ID)

theorem updateLoop_ids (args : Args) (id : Int) (l : List Beast) :
    (updateLoop args id l).2.map (·.ID) = l.map (·.ID) := by
  induction l with
  | nil => rfl
  | cons b rest ih =>
    unfold updateLoop
    by_cases h : b.ID = id
    · rw [if_pos h]
      cases hu : updateFields args b with
      | ok b1 => simp [(updateFields_ID args b).1 b1 hu]
      | error b1 => simp [(updateFields_ID args b).2 b1 hu]
    · rw [if_neg h]
      simp [ih]

theorem updateLoop_miss (args : Args) (id : Int) (l : List Beast)
    (h : ∀ b ∈ l, b.ID ≠ id) : updateLoop args id l = (.returned Beast.zero none, l) := by
  induction l with
  | nil => rfl
  | cons b rest ih =>
    unfold updateLoop
    rw [if_neg (h b (List.mem_cons_self _ _)),
      ih (fun x hx => h x (List.mem_cons_of_mem _ hx))]

theorem updateLoop_hit (args : Args) (id : Int) (pre : List Beast) (b : Beast)
    (post : List Beast) (hpre : ∀ x ∈ pre, x.ID ≠ id) (hb : b.ID = id) :
    updateLoop args id (pre ++ b :: post) =
      match updateFields args b with
      | .ok b1 => (.returned b1 none, pre ++ b1 :: post)
      | .error b1 => (.panicked, pre ++ b1 :: post) := by
  induction pre with
  | nil =>
    simp only [List.nil_append]
    unfold updateLoop
    rw [if_pos hb]
  | cons x pre ih =>
    simp only [List.cons_append]
    unfold updateLoop
    rw [if_neg (hpre x (List.mem_cons_self _ _)),
      ih (fun y hy => hpre y (List.mem_cons_of_mem _ hy))]
    cases updateFields args b <;> rfl

theorem setDescription_OtherNames {args : Args} {b : Beast} :
    (∀ b1, setDescription args b = .ok b1 → b1.OtherNames = b.OtherNames) ∧
    (∀ b1, setDescription args b = .error b1 → b1.OtherNames = b.OtherNames) := by
  unfold setDescription
  constructor <;> intro b1 h <;> split at h
  · cases h; rfl
  · split at h <;> cases h; rfl
  · cases h
  · split at h <;> cases h; rfl

theorem setName_OtherNames {args : Args} {b : Beast} :
    (∀ b1, setName args b = .ok b1 → b1.OtherNames = b.OtherNames) ∧
    (∀ b1, setName args b = .error b1 → b1.OtherNames = b.OtherNames) := by
  unfold setName
  constructor <;> intro b1 h <;> split at h
  · cases h; rfl
  · split at h <;> cases h; rfl
  · cases h
  · split at h <;> cases h; rfl

theorem setImageURL_OtherNames {args : Args} {b : Beast} :
    (∀ b1, setImageURL args b = .ok b1 → b1.OtherNames = b.OtherNames) ∧
    (∀ b1, setImageURL args b = .error b1 → b1.OtherNames = b.OtherNames) := by
  unfold setImageURL
  constructor <;> intro b1 h <;> split at h
  · cases h; rfl
  · split at h <;> cases h; rfl
  · cases h
  · split at h <;> cases h; rfl

/-- With a `[]interface{}` under the key, the assertion of line 152 panics. -/
theorem setOtherNames_ifaces (args : Args) (b : Beast) (xs : List (Option String))
    (ho : args "otherNames" = some (.ifaces xs)) : setOtherNames args b = .error b := by
  unfold setOtherNames
  rw [ho]
  rfl

/-- With a `[]interface{}` under `"otherNames"`, the four assignments never
complete: an earlier assertion panics or the one of line 152 does, and the
record at that point has the old `OtherNames` and `ID`. -/
theorem updateFields_ifaces (args : Args) (b : Beast) (xs : List (Option String))
    (ho : args "otherNames" = some (.ifaces xs)) :
    ∃ b1, updateFields args b = .error b1 ∧ b1.OtherNames = b.OtherNames ∧ b1.ID = b.ID := by
  unfold updateFields
  cases h1 : setDescription args b with
  | error e =>
    exact ⟨e, rfl, setDescription_OtherNames.2 e h1, setDescription_ID.2 e h1⟩
  | ok c1 =>
    have o1 := setDescription_OtherNames.1 c1 h1
    have i1 := setDescription_ID.1 c1 h1
    cases h2 : setName args c1 with
    | error e =>
      refine ⟨e, ?_, (setName_OtherNames.2 e h2).trans o1, (setName_ID.2 e h2).trans i1⟩
      show (setName args c1 >>= setImageURL args >>= setOtherNames args) = .error e
      rw [h2]; rfl
    | ok c2 =>
      have o2 := (setName_OtherNames.1 c2 h2).trans o1
      have i2 := (setName_ID.1 c2 h2).trans i1
      cases h3 : setImageURL args c2 with
      | error e =>
        refine ⟨e, ?_, (setImageURL_OtherNames.2 e h3).trans o2,
          (setImageURL_ID.2 e h3).trans i2⟩
        show (setName args c1 >>= setImageURL args >>= setOtherNames args) = .error e
        rw [h2]
        show (setImageURL args c2 >>= setOtherNames args) = .error e
        rw [h3]; rfl
      | ok c3 =>
        refine ⟨c3, ?_, (setImageURL_OtherNames.1 c3 h3).trans o2,
          (setImageURL_ID.1 c3 h3).trans i2⟩
        show (setName args c1 >>= setImageURL args >>= setOtherNames args) = .error c3
        rw [h2]
        show (setImageURL args c2 >>= setOtherNames args) = .error c3
        rw [h3]
        exact setOtherNames_ifaces args c3 xs ho

/-- With every supplied optional argument of its expected type, the four
assignments succeed and overwrite exactly the supplied fields. -/
theorem updateFields_wellTyped (args : Args) (b : Beast)
    (n d u : Option String) (o : Option (List String))
    (hn : args "name" = n.map Value.str) (hd : args "description" = d.map Value.str)
    (hu : args "imageUrl" = u.map Value.str) (ho : args "otherNames" = o.map Value.strs) :
    updateFields args b =
      .ok { ID := b.ID, Name := n.getD b.Name, Description := d.getD b.Description,
            OtherNames := o.getD b.OtherNames, ImageURL := u.getD b.ImageURL } := by
  unfold updateFields setDescription setName setImageURL setOtherNames
  rw [hn, hd, hu, ho]
  cases n <;> cases d <;> cases u <;> cases o <;> rfl

/-- A record with the identifier splits the store at the first such record. -/
theorem exists_first_ID (l : List Beast) (i : Int) (h : ∃ x ∈ l, x.ID = i) :
    ∃ pre b post, l = pre ++ b :: post ∧ b.ID = i ∧ ∀ x ∈ pre, x.ID ≠ i := by
  induction l with
  | nil => obtain ⟨x, hx, _⟩ := h; cases hx
  | cons a l ih =>
    by_cases ha : a.ID = i
    · exact ⟨[], a, l, rfl, ha, fun x hx => by cases hx⟩
    · obtain ⟨x, hx, hxi⟩ := h
      have hx1 : x ∈ l := by
        rcases List.mem_cons.mp hx with rfl | hx
        · exact absurd hxi ha
        · exact hx
      obtain ⟨pre, b, post, hl, hb, hpre⟩ := ih ⟨x, hx1, hxi⟩
      refine ⟨a :: pre, b, post, by rw [hl]; rfl, hb, ?_⟩
      intro y hy
      rcases List.mem_cons.mp hy with rfl | hy
      · exact ha
      · exact hpre y hy

theorem ids_updateBeast (args : Args) (s : State) : ids (updateBeast args s).2 = ids s := by
  simp [ids, updateBeast, updateLoop_ids]

theorem counter_updateBeast (args : Args) (s : State) :
    (updateBeast args s).2.currentMaxId = s.currentMaxId := rfl

/-! ## Lemmas on `beast` and `beastList` -/

theorem beast_state (args : Args) (s : State) : (beast args s).2 = s := by
  unfold beast
  simp only
  split
  · split <;> rfl
  · rfl

theorem beastLoop_miss (n : String) (l : List Beast) (h : ∀ x ∈ l, x.Name ≠ n) :
    beastLoop n l = none := by
  induction l with
  | nil => rfl
  | cons b rest ih =>
    unfold beastLoop
    rw [if_neg (h b (List.mem_cons_self _ _)),
      ih (fun x hx => h x (List.mem_cons_of_mem _ hx))]

theorem beastLoop_hit (n : String) (pre : List Beast) (b : Beast) (post : List Beast)
    (hpre : ∀ x ∈ pre, x.Name ≠ n) (hb : b.Name = n) :
    beastLoop n (pre ++ b :: post) = some b := by
  induction pre with
  | nil =>
    simp only [List.nil_append]
    unfold beastLoop
    rw [if_pos hb]
  | cons x pre ih =>
    simp only [List.cons_append]
    unfold beastLoop
    rw [if_neg (hpre x (List.mem_cons_self _ _)),
      ih (fun y hy => hpre y (List.mem_cons_of_mem _ hy))]

theorem beast_of_string (args : Args) (s : State) (n : String)
    (h : args "name" = some (.str n)) :
    (beast args s).1 = .returned ((beastLoop n s.BeastList).getD Beast.zero) none := by
  unfold beast
  simp only [h, okString, isString, if_true]
  cases beastLoop n s.BeastList <;> rfl

theorem beast_of_not_string (args : Args) (s : State)
    (h : ∀ n, args "name" ≠ some (.str n)) :
    (beast args s).1 = .returned Beast.zero none := by
  unfold beast
  have : isString (args "name") = false := by
    cases hv : args "name" with
    | none => rfl
    | some v =>
      cases v with
      | str n => exact absurd hv (h n)
      | _ => rfl
  simp [this]

/-! ## Lemmas on sequences of calls -/

theorem ids_kept_by_exec (op : Op) (s : State) : ids s <+: ids (exec op s) := by
  cases op with
  | addBeast args => exact ⟨_, (ids_addBeast args s).symm⟩
  | updateBeast args =>
    show ids s <+: ids (updateBeast args s).2
    rw [ids_updateBeast]
  | beast args =>
    show ids s <+: ids (beast args s).2
    rw [beast_state]
  | beastList => exact ⟨[], by simp [exec, beastList]⟩

theorem uniqInv_addBeast (args : Args) (s : State) (h : UniqInv s)
    (hc : IsInt s.currentMaxId) (hlt : s.currentMaxId < maxInt) :
    UniqInv (addBeast args s).2 := by
  obtain ⟨hnd, hle⟩ := h
  have hw := wrapInt_succ hc hlt
  unfold UniqInv
  rw [ids_addBeast, counter_addBeast, hw]
  constructor
  · rw [List.nodup_append]
    refine ⟨hnd, List.nodup_singleton _, ?_⟩
    intro a ha hb
    have h1 := hle a ha
    have h2 : a = s.currentMaxId + 1 := by simpa using hb
    omega
  · intro i hi
    rcases List.mem_append.mp hi with hi | hi
    · have := hle i hi; omega
    · have h2 : i = s.currentMaxId + 1 := by simpa using hi
      omega

theorem uniqInv_updateBeast (args : Args) (s : State) (h : UniqInv s) :
    UniqInv (updateBeast args s).2 := by
  unfold UniqInv
  rw [ids_updateBeast, counter_updateBeast]
  exact h

theorem uniqInv_beast (args : Args) (s : State) (h : UniqInv s) :
    UniqInv (beast args s).2 := by
  rw [beast_state]; exact h

theorem counter_exec_isInt (op : Op) (s : State) (hc : IsInt s.currentMaxId)
    (hn : s.currentMaxId + addCount [op] ≤ maxInt) :
    IsInt (exec op s).currentMaxId ∧
      (exec op s).currentMaxId = s.currentMaxId + addCount [op] := by
  cases op with
  | addBeast args =>
    have h1 : ((addCount [Op.addBeast args] : Nat) : Int) = 1 := rfl
    rw [h1] at hn ⊢
    have hlt : s.currentMaxId < maxInt := by omega
    have hw := wrapInt_succ hc hlt
    show IsInt (addBeast args s).2.currentMaxId ∧ (addBeast args s).2.currentMaxId = _
    rw [counter_addBeast, hw]
    exact ⟨⟨by have := hc.1; omega, by omega⟩, rfl⟩
  | updateBeast args =>
    show IsInt s.currentMaxId ∧ s.currentMaxId = s.currentMaxId + ((0 : Nat) : Int)
    exact ⟨hc, by simp⟩
  | beast args =>
    show IsInt (beast args s).2.currentMaxId ∧
      (beast args s).2.currentMaxId = s.currentMaxId + ((0 : Nat) : Int)
    rw [beast_state]
    exact ⟨hc, by simp⟩
  | beastList =>
    show IsInt s.currentMaxId ∧ s.currentMaxId = s.currentMaxId + ((0 : Nat) : Int)
    exact ⟨hc, by simp⟩

theorem addCount_cons (op : Op) (ops : List Op) :
    addCount (op :: ops) = addCount [op] + addCount ops := by
  cases op <;> simp +arith [addCount]

theorem uniqInv_exec (op : Op) (s : State) (h : UniqInv s) (hc : IsInt s.currentMaxId)
    (hn : s.currentMaxId + addCount [op] ≤ maxInt) : UniqInv (exec op s) := by
  cases op with
  | addBeast args =>
    have h1 : ((addCount [Op.addBeast args] : Nat) : Int) = 1 := rfl
    rw [h1] at hn
    exact uniqInv_addBeast args s h hc (by omega)
  | updateBeast args => exact uniqInv_updateBeast args s h
  | beast args => exact uniqInv_beast args s h
  | beastList => exact h

theorem uniqInv_run (ops : List Op) (s : State) (h : UniqInv s) (hc : IsInt s.currentMaxId)
    (hn : s.currentMaxId + addCount ops ≤ maxInt) : UniqInv (run ops s) := by
  induction ops generalizing s with
  | nil => exact h
  | cons op ops ih =>
    rw [addCount_cons] at hn
    push_cast at hn
    have hn1 : s.currentMaxId + addCount [op] ≤ maxInt := by omega
    obtain ⟨hc1, he⟩ := counter_exec_isInt op s hc hn1
    exact ih (exec op s) (uniqInv_exec op s h hc hn1) hc1 (by rw [he]; omega)

/-! ## The claims -/

/-- C1, counterexample: from the counter `maxInt - 1`, two `addBeast` calls
return the identifiers `maxInt` and then `minInt`: the second is smaller than
the first, and it is not the initial counter plus two. -/
theorem addBeasts_wraps :
    (returnedBeasts (addBeasts [addMothman, addMothman]
        { BeastList := [], currentMaxId := maxInt - 1 }).1).map (·.ID) = [maxInt, minInt] ∧
      minInt < maxInt ∧ minInt ≠ (maxInt - 1) + 2 := by
  decide

/-- C1 (amended): from a state whose counter `c` is an `int` with
`c + n ≤ maxInt`, `n` serialized `addBeast` calls all return, the `k`-th one
(counting from one) a record with identifier `c + k`; the identifiers returned
are strictly increasing in call order, hence pairwise distinct. -/
theorem addBeasts_ids_increasing (as : List Args) (s : State) (hc : IsInt s.currentMaxId)
    (hn : s.currentMaxId + as.length ≤ maxInt) :
    (addBeasts as s).1.length = as.length ∧
    (∀ k, k < as.length → ∃ r, (addBeasts as s).1[k]? = some (.returned r none) ∧
      r.ID = s.currentMaxId + (k + 1)) ∧
    ((returnedBeasts (addBeasts as s).1).map (·.ID)).Pairwise (· < ·) := by
  refine ⟨addBeasts_length as s, fun k hk => addBeasts_get as s hc hn k hk, ?_⟩
  rw [returnedBeasts_addBeasts_ids as s hc hn, List.pairwise_map]
  refine (List.pairwise_lt_range as.length).imp ?_
  intro a b hab
  have : (a : Int) < b := by exact_mod_cast hab
  omega

/-- Two `addBeast` calls from the startup state: the hypotheses of `addBeasts_ids_increasing` hold and the returned identifiers increase. -/
theorem addBeasts_ids_increasing_witness :
    IsInt (startup [sasquatch]).currentMaxId ∧
    (startup [sasquatch]).currentMaxId + ([addMothman, addSasquatch].length : Int) ≤ maxInt ∧
    ((returnedBeasts (addBeasts [addMothman, addSasquatch] (startup [sasquatch])).1).map
      (·.ID)).Pairwise (· < ·) :=
  ⟨by decide, by decide,
    (addBeasts_ids_increasing [addMothman, addSasquatch] (startup [sasquatch])
      (by decide) (by decide)).2.2⟩

/-- C2, counterexample: the store already holds a record named "Sasquatch";
`addBeast(name: "Sasquatch", description: "Y")` returns a new record with
identifier 6, and the `beast(name: "Sasquatch")` query that follows returns the
older record, not the one just returned. -/
theorem beast_after_add_returns_older :
    (addBeast addSasquatch (startup [sasquatch])).1 =
      .returned { ID := 6, Name := "Sasquatch", Description := "Y", OtherNames := [],
                  ImageURL := "" } none ∧
    (beast (mkArgs [("name", .str "Sasquatch")])
      (addBeast addSasquatch (startup [sasquatch])).2).1 = .returned sasquatch none ∧
    sasquatch ≠ { ID := 6, Name := "Sasquatch", Description := "Y", OtherNames := [],
                  ImageURL := "" } := by
  decide

/-- C2 (amended): `addBeast` with name `X` returns a record `r`; `beastList`
executed afterwards returns a sequence whose last element is `r`; and if no
record of the store before the call has the name `X`, a `beast(name = X)` query
executed afterwards returns exactly `r`. -/
theorem read_your_write (s : State) (args qargs : Args) (X : String)
    (ha : args "name" = some (.str X)) (hq : qargs "name" = some (.str X)) :
    ∃ r, (addBeast args s).1 = .returned r none ∧
      (∃ l, (beastList (addBeast args s).2).1 = .returned l none ∧ l.getLast? = some r) ∧
      ((∀ b ∈ s.BeastList, b.Name ≠ X) →
        (beast qargs (addBeast args s).2).1 = .returned r none) := by
  refine ⟨_, addBeast_outcome args s, ⟨_, rfl, ?_⟩, ?_⟩
  · simp [addBeast_state]
  · intro hfresh
    rw [beast_of_string qargs _ X hq, addBeast_state]
    simp only
    rw [beastLoop_hit X s.BeastList _ [] hfresh (by simp [ha, okString])]
    rfl

/-- The store holds no "Mothman": the query after `addBeast` returns the record `addBeast` returned, with identifier 6. -/
theorem read_your_write_witness :
    addMothman "name" = some (.str "Mothman") ∧
    (∀ b ∈ (startup [sasquatch, nessie]).BeastList, b.Name ≠ "Mothman") ∧
    (beast (mkArgs [("name", .str "Mothman")])
        (addBeast addMothman (startup [sasquatch, nessie])).2).1 =
      (addBeast addMothman (startup [sasquatch, nessie])).1 ∧
    (addBeast addMothman (startup [sasquatch, nessie])).1 =
      .returned { ID := 6, Name := "Mothman", Description := "A winged humanoid",
                  OtherNames := [], ImageURL := "" } none := by
  obtain ⟨r, h1, _, h3⟩ := read_your_write (startup [sasquatch, nessie]) addMothman
    (mkArgs [("name", .str "Mothman")]) "Mothman" (by decide) (by decide)
  refine ⟨by decide, by decide, ?_, by decide⟩
  rw [h1]
  exact h3 (by decide)

/-- The string fields: when the store is `pre ++ b :: post` with `b` the first
record whose identifier is `i`, `otherNames` is not in the argument map and each
of `name`, `description` and `imageUrl` is absent or a string, the call returns
the record `b` with exactly the supplied fields overwritten, that record
replaces `b` in the store, and every other record, the length of the store and
the identifier counter are unchanged. -/
theorem updateBeast_string_fields (s : State) (args : Args) (i : Int)
    (n d u : Option String)
    (pre : List Beast) (b : Beast) (post : List Beast)
    (hid : args "id" = some (.int i))
    (hn : args "name" = n.map Value.str) (hd : args "description" = d.map Value.str)
    (hu : args "imageUrl" = u.map Value.str) (ho : args "otherNames" = none)
    (hs : s.BeastList = pre ++ b :: post) (hb : b.ID = i) (hpre : ∀ x ∈ pre, x.ID ≠ i) :
    updateBeast args s =
      (.returned { ID := b.ID, Name := n.getD b.Name, Description := d.getD b.Description,
                   OtherNames := b.OtherNames, ImageURL := u.getD b.ImageURL } none,
       { BeastList := pre ++
           { ID := b.ID, Name := n.getD b.Name, Description := d.getD b.Description,
             OtherNames := b.OtherNames, ImageURL := u.getD b.ImageURL } :: post,
         currentMaxId := s.currentMaxId }) := by
  unfold updateBeast
  simp only [hid, okInt, hs]
  rw [updateLoop_hit args i pre b post hpre hb,
    updateFields_wellTyped args b n d u none hn hd hu ho]
  rfl

/-- C3, the code where the claim fails: when the store is `pre ++ b :: post`
with `b` the first record whose identifier is `i`, and `updateBeast(id = i, ...)`
is called with an `otherNames` list, which arrives as a `[]interface{}`, the
call panics whatever the other arguments are: no record is returned, and the
record left in the place of `b` has the old `OtherNames`, not the supplied
ones. -/
theorem updateBeast_otherNames_panics (s : State) (args : Args) (i : Int)
    (xs : List (Option String)) (pre : List Beast) (b : Beast) (post : List Beast)
    (hid : args "id" = some (.int i)) (ho : args "otherNames" = some (.ifaces xs))
    (hs : s.BeastList = pre ++ b :: post) (hb : b.ID = i) (hpre : ∀ x ∈ pre, x.ID ≠ i) :
    (updateBeast args s).1 = .panicked ∧
    ∃ b1, (updateBeast args s).2 =
        { BeastList := pre ++ b1 :: post, currentMaxId := s.currentMaxId } ∧
      b1.OtherNames = b.OtherNames ∧ b1.ID = b.ID := by
  obtain ⟨b1, he, ho1, hi1⟩ := updateFields_ifaces args b xs ho
  have e : updateBeast args s =
      (.panicked, { BeastList := pre ++ b1 :: post, currentMaxId := s.currentMaxId }) := by
    unfold updateBeast
    simp only [hid, okInt, hs]
    rw [updateLoop_hit args i pre b post hpre hb, he]
  rw [e]
  exact ⟨rfl, b1, rfl, ho1, hi1⟩

/-- The call `updateBeast(id: 3, description: "new", otherNames: ["Snowman"])`
on a store with two records of identifier 3 panics; the store it leaves has the
new description and the old other names in the first of the two. -/
theorem updateBeast_otherNames_panics_witness :
    (updateBeast (mkArgs [("id", .int 3), ("description", .str "new"),
        ("otherNames", .ifaces [some "Snowman"])])
      (startup [sasquatch, nessie, yeti, yetiTwin])).1 = .panicked ∧
    (updateBeast (mkArgs [("id", .int 3), ("description", .str "new"),
        ("otherNames", .ifaces [some "Snowman"])])
      (startup [sasquatch, nessie, yeti, yetiTwin])).2 =
      { BeastList := [sasquatch, nessie, { yeti with Description := "new" }, yetiTwin],
        currentMaxId := 5 } :=
  ⟨(updateBeast_otherNames_panics (startup [sasquatch, nessie, yeti, yetiTwin])
      (mkArgs [("id", .int 3), ("description", .str "new"),
        ("otherNames", .ifaces [some "Snowman"])]) 3 [some "Snowman"]
      [sasquatch, nessie] yeti [yetiTwin] (by decide) (by decide) rfl rfl (by decide)).1,
    by decide⟩

/-- C5, the code at the failing inputs: `updateBeast(id: 1, otherNames: ["Bigfoot"])`,
whose list argument arrives as a `[]interface{}`, panics and leaves the store
as it was; `updateBeast(id: 1, description: "new", name: 42)` panics after the
description of the stored record has been overwritten. -/
theorem updateBeast_illTyped_panics :
    updateBeast (mkArgs [("id", .int 1), ("otherNames", .ifaces [some "Bigfoot"])])
        (startup [sasquatch]) = (.panicked, startup [sasquatch]) ∧
    updateBeast (mkArgs [("id", .int 1), ("description", .str "new"), ("name", .int 42)])
        (startup [sasquatch]) =
      (.panicked, startup [{ sasquatch with Description := "new" }]) := by
  decide

/-- C6: `beast` leaves the store and the counter as they are; when `name` is a
string and some record has exactly that name, it returns the first such record
in store order; when `name` is a string that no record has, or `name` is absent
or not a string, it returns the zero `Beast` with no error. -/
theorem beast_lookup (args : Args) (s : State) :
    (beast args s).2 = s ∧
    (∀ n pre b post, args "name" = some (.str n) → s.BeastList = pre ++ b :: post →
      b.Name = n → (∀ x ∈ pre, x.Name ≠ n) → (beast args s).1 = .returned b none) ∧
    (∀ n, args "name" = some (.str n) → (∀ x ∈ s.BeastList, x.Name ≠ n) →
      (beast args s).1 = .returned Beast.zero none) ∧
    ((∀ n, args "name" ≠ some (.str n)) → (beast args s).1 = .returned Beast.zero none) ∧
    Beast.zero = { ID := 0, Name := "", Description := "", OtherNames := [], ImageURL := "" } := by
  refine ⟨beast_state args s, ?_, ?_, beast_of_not_string args s, rfl⟩
  · intro n pre b post hn hs hb hpre
    rw [beast_of_string args s n hn, hs, beastLoop_hit n pre b post hpre hb]
    rfl
  · intro n hn hmiss
    rw [beast_of_string args s n hn, beastLoop_miss n _ hmiss]
    rfl

/-- The first "Yeti" of two is returned; "yeti", a name that is an `int` and an absent name give the zero `Beast`. -/
theorem beast_lookup_witness :
    (beast (mkArgs [("name", .str "Yeti")]) (startup [sasquatch, yeti, nessie, yeti])).1 =
      .returned yeti none ∧
    (beast (mkArgs [("name", .str "yeti")]) (startup [sasquatch, yeti, nessie])).1 =
      .returned Beast.zero none ∧
    (beast (mkArgs [("name", .int 7)]) (startup [sasquatch, yeti, nessie])).1 =
      .returned Beast.zero none ∧
    (beast (mkArgs []) (startup [sasquatch, yeti, nessie])).1 = .returned Beast.zero none :=
  ⟨(beast_lookup (mkArgs [("name", .str "Yeti")]) (startup [sasquatch, yeti, nessie, yeti])).2.1
      "Yeti" [sasquatch] yeti [nessie, yeti] (by decide) rfl rfl (by decide),
   (beast_lookup (mkArgs [("name", .str "yeti")]) (startup [sasquatch, yeti, nessie])).2.2.1
      "yeti" (by decide) (by decide),
   (beast_lookup (mkArgs [("name", .int 7)]) (startup [sasquatch, yeti, nessie])).2.2.2.1
      (fun n h => by cases h),
   (beast_lookup (mkArgs []) (startup [sasquatch, yeti, nessie])).2.2.2.1
      (fun n h => by cases h)⟩

/-- C7: when no record of the store has the identifier `i`, `updateBeast(id = i, ...)`
returns the zero `Beast` with no error, whatever the other arguments hold
(absent, well typed or not), and the store and the identifier counter are as
before the call. -/
theorem updateBeast_miss (args : Args) (s : State) (i : Int)
    (hid : args "id" = some (.int i)) (h : ∀ b ∈ s.BeastList, b.ID ≠ i) :
    updateBeast args s = (.returned Beast.zero none, s) ∧
    Beast.zero = { ID := 0, Name := "", Description := "", OtherNames := [], ImageURL := "" } := by
  refine ⟨?_, rfl⟩
  unfold updateBeast
  simp only [hid, okInt]
  rw [updateLoop_miss args i s.BeastList h]

/-- No record has the identifier 99999: the zero `Beast` is returned and the state is kept, ill-typed arguments notwithstanding. -/
theorem updateBeast_miss_witness :
    updateBeast (mkArgs [("id", .int 99999), ("name", .int 42), ("description", .str "new"),
        ("otherNames", .ifaces [none])]) (startup [sasquatch, nessie]) =
      (.returned Beast.zero none, startup [sasquatch, nessie]) :=
  (updateBeast_miss (mkArgs [("id", .int 99999), ("name", .int 42), ("description", .str "new"),
    ("otherNames", .ifaces [none])]) (startup [sasquatch, nessie]) 99999 (by decide)
    (by decide)).1

/-- C8, counterexample: with the counter at `maxInt`, `addBeast` returns a
record whose identifier is `minInt` and sets the counter to `minInt`, which is
not the old counter plus one. -/
theorem addBeast_wraps_at_maxInt :
    (addBeast addMothman { BeastList := [], currentMaxId := maxInt }).1 =
      .returned { ID := minInt, Name := "Mothman", Description := "A winged humanoid",
                  OtherNames := [], ImageURL := "" } none ∧
    (addBeast addMothman { BeastList := [], currentMaxId := maxInt }).2.currentMaxId = minInt ∧
    minInt ≠ maxInt + 1 := by
  decide

/-- C8 (amended): in a state with store `l` and a counter `c` that is an `int`
below `maxInt`, `addBeast` with the strings `X` and `Y` as name and description
and `imageUrl` absent or a string, whatever `otherNames` holds, returns, with no
error, a record `r` with identifier `c + 1`, name `X`, description `Y` and the
supplied `imageUrl` (empty when absent), whose `otherNames` are empty when the
argument is absent; the new store is `l` with `r` appended (one record longer,
the earlier records kept in order), and the new counter is `c + 1`. -/
theorem addBeast_post (s : State) (args : Args) (X Y : String) (u : Option String)
    (hX : args "name" = some (.str X)) (hY : args "description" = some (.str Y))
    (hu : args "imageUrl" = u.map Value.str)
    (hc : IsInt s.currentMaxId) (hlt : s.currentMaxId < maxInt) :
    ∃ r, addBeast args s =
        (.returned r none,
         { BeastList := s.BeastList ++ [r], currentMaxId := s.currentMaxId + 1 }) ∧
      r.ID = s.currentMaxId + 1 ∧ r.Name = X ∧ r.Description = Y ∧
      r.ImageURL = u.getD "" ∧
      (args "otherNames" = none → r.OtherNames = []) ∧
      (addBeast args s).2.BeastList.length = s.BeastList.length + 1 := by
  have hw := wrapInt_succ hc hlt
  refine ⟨{ ID := s.currentMaxId + 1, Name := X, Description := Y,
            OtherNames := okStrings (args "otherNames"), ImageURL := u.getD "" },
    ?_, rfl, rfl, rfl, rfl, ?_, ?_⟩
  · unfold addBeast
    simp only [hX, hY, hu, hw, okString]
    cases u <;> rfl
  · intro h
    show okStrings (args "otherNames") = []
    rw [h]
    rfl
  · simp [addBeast_state]

/-- From the startup state with two seeded records, the call
`addBeast(name: "Mothman", description: "A winged humanoid", imageUrl: "mothman.png")`
returns the record with identifier 6 and appends it. -/
theorem addBeast_post_witness :
    IsInt (startup [sasquatch, nessie]).currentMaxId ∧
    (startup [sasquatch, nessie]).currentMaxId < maxInt ∧
    addBeast (mkArgs [("name", .str "Mothman"), ("description", .str "A winged humanoid"),
        ("imageUrl", .str "mothman.png")]) (startup [sasquatch, nessie]) =
      (.returned { ID := 6, Name := "Mothman", Description := "A winged humanoid",
                   OtherNames := [], ImageURL := "mothman.png" } none,
       { BeastList := [sasquatch, nessie,
           { ID := 6, Name := "Mothman", Description := "A winged humanoid",
             OtherNames := [], ImageURL := "mothman.png" }],
         currentMaxId := 6 }) := by
  obtain ⟨r, he, h1, h2, h3, h4, h5, _⟩ := addBeast_post (startup [sasquatch, nessie])
    (mkArgs [("name", .str "Mothman"), ("description", .str "A winged humanoid"),
      ("imageUrl", .str "mothman.png")]) "Mothman" "A winged humanoid"
    (some "mothman.png") (by decide) (by decide) (by decide) (by decide) (by decide)
  refine ⟨by decide, by decide, ?_⟩
  have hr : r = { ID := 6, Name := "Mothman", Description := "A winged humanoid",
                  OtherNames := [], ImageURL := "mothman.png" } := by
    cases r
    simp only [Beast.mk.injEq]
    exact ⟨h1, h2, h3, h5 (by decide), h4⟩
  rw [he, hr]
  rfl

/-- C9: for every state and every call, the identifiers of the store before the
call are a prefix of the identifiers of the store after it; after `updateBeast`
(also one that panics), `beast` and `beastList` the two sequences are equal. -/
theorem ids_kept_by_every_call :
    (∀ (op : Op) (s : State), ids s <+: ids (exec op s)) ∧
    (∀ (args : Args) (s : State), ids (updateBeast args s).2 = ids s) ∧
    (∀ (args : Args) (s : State), ids (beast args s).2 = ids s) ∧
    (∀ s : State, ids (beastList s).2 = ids s) :=
  ⟨ids_kept_by_exec, ids_updateBeast, fun args s => by rw [beast_state], fun _ => rfl⟩

/-- C4, counterexample: the seed holds one record, with identifier 6, so its
identifiers are pairwise distinct; after one `addBeast` call from the startup
state the store holds the identifier 6 twice. -/
theorem startup_seed_collision :
    ((startup [chupacabra]).BeastList.map (·.ID)).Nodup ∧
    ids (run [.addBeast addMothman] (startup [chupacabra])) = [6, 6] ∧
    ¬ (ids (run [.addBeast addMothman] (startup [chupacabra]))).Nodup := by
  decide

/-- C4 (amended): from the startup state (counter 5) with a seed whose
identifiers are pairwise distinct and all at most 5, after every serialized
sequence of `addBeast`, `updateBeast`, `beast` and `beastList` calls with at
most `maxInt - 5` calls of `addBeast`, no two records of the store have the
same identifier. -/
theorem startup_ids_nodup (seed : List Beast) (ops : List Op)
    (hseed : (seed.map (·.ID)).Nodup) (hle : ∀ b ∈ seed, b.ID ≤ 5)
    (hn : (addCount ops : Int) ≤ maxInt - 5) :
    (ids (run ops (startup seed))).Nodup := by
  have hinv : UniqInv (startup seed) := by
    refine ⟨hseed, ?_⟩
    intro i hi
    obtain ⟨b, hb, rfl⟩ := List.mem_map.mp hi
    exact hle b hb
  have hc : IsInt (startup seed).currentMaxId := by
    show IsInt 5
    decide
  have hn1 : (startup seed).currentMaxId + addCount ops ≤ maxInt := by
    show (5 : Int) + addCount ops ≤ maxInt
    omega
  exact (uniqInv_run ops (startup seed) hinv hc hn1).1

/-- A seed with the identifiers 1, 2, 3 and five calls, two of them `addBeast`: the store ends with the identifiers 1, 2, 3, 6, 7. -/
theorem startup_ids_nodup_witness :
    ([sasquatch, nessie, yeti].map (·.ID)).Nodup ∧
    (∀ b ∈ [sasquatch, nessie, yeti], b.ID ≤ 5) ∧
    ids (run [.addBeast addMothman, .updateBeast (mkArgs [("id", .int 6), ("name", .int 1)]),
        .beast (mkArgs [("name", .str "Yeti")]), .beastList, .addBeast addSasquatch]
      (startup [sasquatch, nessie, yeti])) = [1, 2, 3, 6, 7] ∧
    (ids (run [.addBeast addMothman, .updateBeast (mkArgs [("id", .int 6), ("name", .int 1)]),
        .beast (mkArgs [("name", .str "Yeti")]), .beastList, .addBeast addSasquatch]
      (startup [sasquatch, nessie, yeti]))).Nodup :=
  ⟨by decide, by decide, by decide,
    startup_ids_nodup [sasquatch, nessie, yeti]
      [.addBeast addMothman, .updateBeast (mkArgs [("id", .int 6), ("name", .int 1)]),
        .beast (mkArgs [("name", .str "Yeti")]), .beastList, .addBeast addSasquatch]
      (by decide) (by decide) (by decide)⟩

/-- C10, counterexample: the state with the one identifier `minInt` in the
store and the counter `maxInt` satisfies the predicate; `addBeast` returns a
record with identifier `minInt`, which is already in the store, and the state
after the call no longer satisfies the predicate. -/
theorem uniqInv_broken_at_maxInt :
    UniqInv { BeastList := [lowest], currentMaxId := maxInt } ∧
    (addBeast addMothman { BeastList := [lowest], currentMaxId := maxInt }).1 =
      .returned { ID := minInt, Name := "Mothman", Description := "A winged humanoid",
                  OtherNames := [], ImageURL := "" } none ∧
    minInt ∈ ids { BeastList := [lowest], currentMaxId := maxInt } ∧
    ¬ UniqInv (addBeast addMothman { BeastList := [lowest], currentMaxId := maxInt }).2 := by
  decide

/-- C10 (amended): the predicate "the identifiers of the store are pairwise
distinct and each is at most the identifier counter" is preserved by
`updateBeast`, `beast` and `beastList` for all arguments, and by `addBeast`
when the counter is an `int` below `maxInt`, in which case the record `addBeast`
returns has an identifier that is not in the store before the call; hence from
a state that satisfies it and whose counter `c` is an `int`, every sequence of
calls with at most `maxInt - c` calls of `addBeast` ends in a state that
satisfies it, whose identifiers are pairwise distinct. -/
theorem uniqInv_preserved (s : State) (h : UniqInv s) :
    (∀ args, IsInt s.currentMaxId → s.currentMaxId < maxInt →
      UniqInv (addBeast args s).2 ∧
      ∀ r, (addBeast args s).1 = .returned r none → r.ID ∉ ids s) ∧
    (∀ args, UniqInv (updateBeast args s).2) ∧
    (∀ args, UniqInv (beast args s).2) ∧
    UniqInv (beastList s).2 ∧
    (∀ ops, IsInt s.currentMaxId → s.currentMaxId + addCount ops ≤ maxInt →
      UniqInv (run ops s) ∧ (ids (run ops s)).Nodup) := by
  refine ⟨?_, fun args => uniqInv_updateBeast args s h, fun args => uniqInv_beast args s h, h, ?_⟩
  · intro args hc hlt
    refine ⟨uniqInv_addBeast args s h hc hlt, ?_⟩
    intro r hr hmem
    rw [addBeast_outcome] at hr
    have hid : r.ID = wrapInt (s.currentMaxId + 1) := by
      injection hr with hr _
      rw [← hr]
    rw [hid, wrapInt_succ hc hlt] at hmem
    have := h.2 _ hmem
    omega
  · intro ops hc hn
    have := uniqInv_run ops s h hc hn
    exact ⟨this, this.1⟩

/-- The startup state with the identifiers 1 and 3 satisfies the predicate, and so do the states after the calls. -/
theorem uniqInv_preserved_witness :
    UniqInv (startup [sasquatch, yeti]) ∧
    IsInt (startup [sasquatch, yeti]).currentMaxId ∧
    (startup [sasquatch, yeti]).currentMaxId < maxInt ∧
    UniqInv (addBeast addMothman (startup [sasquatch, yeti])).2 ∧
    (6 : Int) ∉ ids (startup [sasquatch, yeti]) ∧
    (ids (run [.addBeast addMothman, .updateBeast (mkArgs [("id", .int 6)]),
      .addBeast addMothman] (startup [sasquatch, yeti]))).Nodup :=
  ⟨by decide, by decide, by decide,
    ((uniqInv_preserved (startup [sasquatch, yeti]) (by decide)).1 addMothman
      (by decide) (by decide)).1,
    ((uniqInv_preserved (startup [sasquatch, yeti]) (by decide)).1 addMothman
      (by decide) (by decide)).2
      { ID := 6, Name := "Mothman", Description := "A winged humanoid",
        OtherNames := [], ImageURL := "" } (by decide),
    ((uniqInv_preserved (startup [sasquatch, yeti]) (by decide)).2.2.2.2
      [.addBeast addMothman, .updateBeast (mkArgs [("id", .int 6)]), .addBeast addMothman]
      (by decide) (by decide)).2⟩

end Bestiary
